import Mathlib

/-!
Verification development for the ALPARSLAN media download service.

The TypeScript sources are modelled by a shallow embedding:
strings become lists of characters, JavaScript numbers become rationals,
the in-memory job registry (a Map keyed by job id) becomes an association
list, and each exported function of the server modules becomes a pure Lean
function from the old state to the new state together with its return value.
Source locations are cited next to every definition.
-/

attribute [local semireducible] Rat.mul Rat.add Rat.inv Rat.sub Rat.ofScientific

namespace Alparslan

/-- Strings of the JavaScript runtime are modelled as lists of characters. -/
abbrev Str := List Char

/-- The double-quote character. -/
def quoteChar : Char := Char.ofNat 34

/-- The single-quote character. -/
def aposChar : Char := Char.ofNat 39

/-- Characters matched by the JavaScript regular-expression class backslash-s
(whitespace), used by trimming and by the size-line parser. -/
def wsChars : List Char :=
  [Char.ofNat 32, Char.ofNat 9, Char.ofNat 10, Char.ofNat 11, Char.ofNat 12,
   Char.ofNat 13, Char.ofNat 0xa0, Char.ofNat 0x1680, Char.ofNat 0x2000,
   Char.ofNat 0x2001, Char.ofNat 0x2002, Char.ofNat 0x2003, Char.ofNat 0x2004,
   Char.ofNat 0x2005, Char.ofNat 0x2006, Char.ofNat 0x2007, Char.ofNat 0x2008,
   Char.ofNat 0x2009, Char.ofNat 0x200a, Char.ofNat 0x2028, Char.ofNat 0x2029,
   Char.ofNat 0x202f, Char.ofNat 0x205f, Char.ofNat 0x3000, Char.ofNat 0xfeff]

/-- Test for JavaScript whitespace. -/
def isJsWs (c : Char) : Bool := wsChars.contains c

/-- Substring test, the model of the JavaScript `String.prototype.includes`. -/
def containsSub (hay needle : Str) : Bool :=
  (List.range (hay.length + 1)).any (fun i => needle.isPrefixOf (hay.drop i))

/-- Prefix test on character lists. -/
def startsWithStr (s pre : Str) : Bool := pre.isPrefixOf s

/-- Suffix test on character lists. -/
def endsWithStr (s suf : Str) : Bool := suf.isSuffixOf s

/-- Replace every occurrence of the character `c` by the string `r`; this is
the model of one `String.prototype.replace` call with a global single-character
class regular expression, as both sanitizers perform. -/
def replaceChar (c : Char) (r : Str) : Str → Str
  | [] => []
  | x :: xs => (if x = c then r else [x]) ++ replaceChar c r xs

/-- Apply a list of character-to-string replacements from left to right, the
model of the replacement loops in `sanitizeFilename` (src/src/server/download.ts
lines 144-147) and `sanitizeMetadata` (src/src/server/namingResolver.ts
lines 56-59). -/
def applyPairs (ps : List (Char × Str)) (s : Str) : Str :=
  ps.foldl (fun acc p => replaceChar p.1 p.2 acc) s

/-- The replacement table shared verbatim by `sanitizeFilename`
(src/src/server/download.ts lines 132-142) and `sanitizeMetadata`
(src/src/server/namingResolver.ts lines 44-54); `Object.entries` iterates it
in insertion order. -/
def illegalPairs : List (Char × Str) :=
  [(':', " - ".data), ('/', "_".data), ('\\', "_".data), ('?', []),
   (quoteChar, [aposChar]), ('<', "[".data), ('>', "]".data),
   ('|', "-".data), ('*', "_".data)]

/-- The reserved filename characters of the class in
src/src/server/namingResolver.ts line 33. -/
def reservedChars : List Char :=
  ['\\', '/', ':', '*', '?', quoteChar, '<', '>', '|']

/-- Remove the maximal trailing run of whitespace and dots, modelling the
replacement of the anchored trailing class by the empty string
(src/src/server/download.ts line 150 and src/src/server/namingResolver.ts
line 62). -/
def trimTrailingWsDots (s : Str) : Str :=
  ((s.reverse).dropWhile (fun c => isJsWs c || c = '.')).reverse

/-- Model of `sanitizeFilename` (src/src/server/download.ts lines 130-153):
apply the replacement table, then strip trailing whitespace and dots. -/
def sanitizeFilename (s : Str) : Str :=
  trimTrailingWsDots (applyPairs illegalPairs s)

/-- Model of `sanitizeMetadata` (src/src/server/namingResolver.ts lines 43-65);
its body is character-for-character the body of `sanitizeFilename`. -/
def sanitizeMetadata (s : Str) : Str :=
  trimTrailingWsDots (applyPairs illegalPairs s)

/-- Strip leading and trailing JavaScript whitespace, the model of
`String.prototype.trim`. -/
def jsTrim (s : Str) : Str :=
  ((s.dropWhile isJsWs).reverse.dropWhile isJsWs).reverse

section Naming

/-- Download mode, src/src/server/namingResolver.ts line 9. -/
inductive Mode where
  | video
  | audio
deriving DecidableEq

/-- Content type, src/src/server/namingResolver.ts line 10. -/
inductive ContentType where
  | single
  | playlist
deriving DecidableEq

/-- The distinguishable validation error kinds of
src/src/server/namingResolver.ts line 16. -/
inductive ValidationType where
  | empty
  | missing_mandatory
  | invalid_tag
  | invalid_character
  | invalid_quality
  | invalid_index
deriving DecidableEq

/-- Validation verdict, src/src/server/namingResolver.ts lines 13-17; the
human-readable message field is informational and not modelled. -/
structure NamingValidationResult where
  valid : Bool
  type : Option ValidationType
deriving DecidableEq

/-- Characters other than a closing angle bracket, the character class inside
the tag regular expression. -/
def notGt (c : Char) : Bool := c ≠ '>'

/-- Worker of `removeTags`, structurally recursive on a fuel bounded by the
length of the string; every step consumes at least one character, so fuel
equal to the length never runs out. -/
def removeTagsAux : ℕ → Str → Str
  | _, [] => []
  | 0, s => s
  | fuel + 1, c :: rest =>
    if c = '<' then
      match rest.dropWhile notGt with
      | '>' :: after =>
        if rest.takeWhile notGt = [] then '<' :: removeTagsAux fuel rest
        else removeTagsAux fuel after
      | _ => '<' :: removeTagsAux fuel rest
    else
      c :: removeTagsAux fuel rest

/-- Delete every maximal tag occurrence, the model of replacing the global tag
regular expression by the empty string (src/src/server/namingResolver.ts
lines 73 and 81).  A tag is an opening bracket, one or more characters other
than a closing bracket, then the first closing bracket; a bare opening
bracket with no such closure is kept as literal text. -/
def removeTags (s : Str) : Str := removeTagsAux s.length s

/-- Worker of `collectTags`, with the same fuel discipline as
`removeTagsAux`. -/
def collectTagsAux : ℕ → Str → List Str
  | _, [] => []
  | 0, _ => []
  | fuel + 1, c :: rest =>
    if c = '<' then
      match rest.dropWhile notGt with
      | '>' :: after =>
        if rest.takeWhile notGt = [] then collectTagsAux fuel rest
        else ('<' :: (rest.takeWhile notGt ++ ['>'])) :: collectTagsAux fuel after
      | _ => collectTagsAux fuel rest
    else
      collectTagsAux fuel rest

/-- Collect every maximal tag occurrence, the model of matching the global tag
regular expression (src/src/server/namingResolver.ts lines 90-91). -/
def collectTags (s : Str) : List Str := collectTagsAux s.length s

/-- The supported tags, src/src/server/namingResolver.ts line 36. -/
def allTags : List Str :=
  ["<title>".data, "<index>".data, "<quality>".data, "<channel>".data,
   "<date>".data, "<format>".data]

/-- Model of `hasInvalidUserCharacters` (src/src/server/namingResolver.ts
lines 71-75): remove tags, then test for a reserved character. -/
def hasInvalidUserCharacters (template : Str) : Bool :=
  (removeTags template).any (fun c => reservedChars.contains c)

/-- Model of `extractTags` (src/src/server/namingResolver.ts lines 89-93). -/
def extractTags (template : Str) : List Str :=
  (collectTags template).filter (fun tag => allTags.contains tag)

/-- Model of `getMandatoryTags` (src/src/server/namingResolver.ts
lines 98-110). -/
def getMandatoryTags (contentType : ContentType) (mode : Mode) : List Str :=
  ["<title>".data]
    ++ (if contentType = ContentType.playlist then ["<index>".data] else [])
    ++ (if mode = Mode.video then ["<quality>".data] else [])

/-- Model of `getAllowedTags` (src/src/server/namingResolver.ts
lines 115-127). -/
def getAllowedTags (contentType : ContentType) (mode : Mode) : List Str :=
  ["<title>".data, "<channel>".data, "<date>".data, "<format>".data]
    ++ (if contentType = ContentType.playlist then ["<index>".data] else [])
    ++ (if mode = Mode.video then ["<quality>".data] else [])

/-- Model of `validateTemplate` (src/src/server/namingResolver.ts
lines 133-198). -/
def validateTemplate (template : Str) (contentType : ContentType)
    (mode : Mode) : NamingValidationResult :=
  if jsTrim template = [] then
    ⟨false, some ValidationType.empty⟩
  else if hasInvalidUserCharacters template then
    ⟨false, some ValidationType.invalid_character⟩
  else
    let tagsInTemplate := extractTags template
    let mandatoryTags := getMandatoryTags contentType mode
    let allowedTags := getAllowedTags contentType mode
    let missingMandatory :=
      mandatoryTags.filter (fun tag => !(tagsInTemplate.contains tag))
    if missingMandatory ≠ [] then
      ⟨false, some ValidationType.missing_mandatory⟩
    else
      let invalidTags :=
        tagsInTemplate.filter (fun tag => !(allowedTags.contains tag))
      match invalidTags with
      | [] => ⟨true, none⟩
      | tag :: _ =>
        if tag = "<index>".data ∧ contentType = ContentType.single then
          ⟨false, some ValidationType.invalid_index⟩
        else if tag = "<quality>".data ∧ mode = Mode.audio then
          ⟨false, some ValidationType.invalid_quality⟩
        else
          ⟨true, none⟩

end Naming

section Settings

/-- The four naming templates, src/unnamed/part_005 lines 58-67. -/
structure TemplatePair where
  video : Str
  audio : Str
deriving DecidableEq

/-- The persisted template record. -/
structure NamingTemplates where
  single : TemplatePair
  playlist : TemplatePair
deriving DecidableEq

/-- Model of `getDefaultNamingTemplates` (src/unnamed/part_005 lines 78-89). -/
def getDefaultNamingTemplates : NamingTemplates :=
  ⟨⟨"<title> - <quality>".data, "<title>".data⟩,
   ⟨"<index> - <title> - <quality>".data, "<index> - <title>".data⟩⟩

/-- Parsed JSON values of the shapes the settings file can hold.  The
serialized text and the parsed tree are identified, which is exactly the
claim qualifier that round trips hold modulo JSON whitespace. -/
inductive Json where
  | null : Json
  | str : Str → Json
  | obj : List (Str × Json) → Json

/-- First binding of a key inside an object; any other shape has no keys,
matching JavaScript property access on the parsed value. -/
def Json.lookup (j : Json) (key : Str) : Option Json :=
  match j with
  | Json.obj fields =>
    match fields.find? (fun f => f.1 = key) with
    | some f => some f.2
    | none => none
  | _ => none

/-- JavaScript falsiness of a parsed JSON value, used by the guard on the
`namingTemplates` key (src/unnamed/part_005 line 106). -/
def Json.falsy : Json → Bool
  | Json.null => true
  | Json.str s => s = []
  | Json.obj _ => false

/-- The JSON tree written for a template record, the model of the object
literal passed to serialization in src/unnamed/part_005 lines 124 and 139. -/
def encodeTemplates (t : NamingTemplates) : Json :=
  Json.obj
    [("single".data, Json.obj
       [("video".data, Json.str t.single.video),
        ("audio".data, Json.str t.single.audio)]),
     ("playlist".data, Json.obj
       [("video".data, Json.str t.playlist.video),
        ("audio".data, Json.str t.playlist.audio)])]

/-- The settings file as the reader sees it: absent, or a parsed JSON tree. -/
abbrev SettingsFile := Option Json

/-- Model of `readSettingsFile` followed by the `namingTemplates` projection of
`getNamingTemplates` (src/unnamed/part_005 lines 98-113 and 129-135): missing
file or missing (falsy) key yields the defaults. -/
def getNamingTemplates (file : SettingsFile) : Json :=
  match file with
  | none => encodeTemplates getDefaultNamingTemplates
  | some j =>
    match j.lookup ("namingTemplates".data) with
    | none => encodeTemplates getDefaultNamingTemplates
    | some v =>
      if v.falsy then encodeTemplates getDefaultNamingTemplates else v

/-- Model of `setNamingTemplates` with `writeSettingsFile`
(src/unnamed/part_005 lines 116-126 and 138-141): the whole file is replaced
by one object holding the `namingTemplates` key; the temp-then-rename step
makes the replacement atomic, so the new file content is total. -/
def setNamingTemplates (t : NamingTemplates) (_file : SettingsFile) :
    SettingsFile :=
  some (Json.obj [("namingTemplates".data, encodeTemplates t)])

end Settings

section Manager

/-- Download stage, src/unnamed/part_014 line 16. -/
inductive Stage where
  | video
  | audio
  | merging
  | complete
deriving DecidableEq

/-- Job status.  The download manager itself stores the five statuses of
src/unnamed/part_014 line 13; `converting` is the extra member of the
`JobStatus` union (src/src/types/index.ts line 8) written through `setStatus`
by the extractor driver. -/
inductive Status where
  | downloading
  | paused
  | converting
  | completed
  | failed
  | canceled
deriving DecidableEq

/-- The stored completion record, src/unnamed/part_014 lines 34-38. -/
structure DownloadResultInfo where
  filePath : Str
  fileName : Str
  fileSize : Str
deriving DecidableEq

/-- Download options, src/src/server/download.ts lines 25-40; the
`onProgress` callback carries no data and is not modelled. -/
structure DownloadOptions where
  url : Str
  videoId : Str
  jobId : Option Str
  outputFolder : Str
  mode : Mode
  quality : Option Str
  format : Option Str
  fileSize : Option ℚ
  resolvedFilename : Option Str
  downloadSubtitles : Option Bool
  subtitleLanguage : Option Str
  createPerChannelFolder : Option Bool
  channel : Option Str
deriving DecidableEq

/-- Per-job progress record, src/unnamed/part_014 lines 7-21. -/
structure DownloadProgress where
  totalBytes : ℚ
  downloadedBytes : ℚ
  percentage : ℚ
  speed : ℚ
  eta : ℚ
  status : Status
  error : Option Str
  stage : Stage
  videoTotalBytes : ℚ
  audioTotalBytes : ℚ
  videoDownloadedBytes : ℚ
  audioDownloadedBytes : ℚ
deriving DecidableEq

/-- Runtime state of one job, src/unnamed/part_014 lines 23-39.  The child
process handle is modelled by its presence. -/
structure ActiveDownload where
  videoId : Str
  process : Option Unit
  isPaused : Bool
  progress : DownloadProgress
  startTime : ℚ
  downloadedBytesAtLastCheck : ℚ
  lastCheckTime : ℚ
  filePath : Str
  options : DownloadOptions
  isResuming : Bool
  result : Option DownloadResultInfo
deriving DecidableEq

/-- The process-wide job registry (src/unnamed/part_014 line 41), a Map from
job id to ActiveDownload modelled as an association list with unique keys. -/
abbrev Registry := List (Str × ActiveDownload)

/-- First binding of a key, the model of `Map.prototype.get`. -/
def mapGet : Registry → Str → Option ActiveDownload
  | [], _ => none
  | p :: rest, k => if p.1 = k then some p.2 else mapGet rest k

/-- Model of `Map.prototype.has`. -/
def mapHas (reg : Registry) (k : Str) : Bool := (mapGet reg k).isSome

/-- Mutate the entry stored under a key in place, the model of writing through
a reference obtained from `Map.prototype.get`. -/
def updateEntry : Registry → Str → (ActiveDownload → ActiveDownload) → Registry
  | [], _, _ => []
  | p :: rest, k, f =>
    (if p.1 = k then (p.1, f p.2) else p) :: updateEntry rest k f

/-- Model of `Map.prototype.delete`. -/
def mapDelete : Registry → Str → Registry
  | [], _ => []
  | p :: rest, k => if p.1 = k then mapDelete rest k else p :: mapDelete rest k

/-- JavaScript truthiness of an optional string. -/
def optTruthyStr (o : Option Str) : Bool :=
  match o with
  | none => false
  | some s => !s.isEmpty

/-- JavaScript `x || 0` on an optional number (zero is falsy). -/
def jsNumOr0 (o : Option ℚ) : ℚ :=
  match o with
  | none => 0
  | some n => if n = 0 then 0 else n

/-- JavaScript `Math.round`: the nearest integer, halves away from zero on the
positive side. -/
def jsRound (q : ℚ) : ℤ := ⌊q + 1 / 2⌋

/-- ASCII lowercasing, the model of `String.prototype.toLowerCase` on the
format names that occur. -/
def toLowerStr (s : Str) : Str := s.map Char.toLower

/-- Model of the lazy speed and ETA sampling inside `getDownloadProgress`
(src/unnamed/part_014 lines 69-87); `now` stands for `Date.now()`. -/
def sampleSpeedEta (now : ℚ) (d : ActiveDownload) : ActiveDownload :=
  let timeDiff := (now - d.lastCheckTime) / 1000
  if timeDiff > 1 / 2 then
    let bytesDiff := d.progress.downloadedBytes - d.downloadedBytesAtLastCheck
    let speed := bytesDiff / timeDiff
    let p1 : DownloadProgress := { d.progress with speed := max 0 speed }
    let p2 : DownloadProgress :=
      if speed > 0 ∧ p1.totalBytes > 0 then
        { p1 with eta := (p1.totalBytes - p1.downloadedBytes) / speed }
      else p1
    { d with
        progress := p2,
        downloadedBytesAtLastCheck := p2.downloadedBytes,
        lastCheckTime := now }
  else d

/-- The outgoing copy of a progress record together with the result field
that `getDownloadProgress` attaches to it (src/unnamed/part_014
lines 89-95). -/
structure ProgressView where
  progress : DownloadProgress
  result : Option DownloadResultInfo
deriving DecidableEq

/-- Model of the read-side audio size projection and the response copy of
`getDownloadProgress` (src/unnamed/part_014 lines 89-129). -/
def projectView (d : ActiveDownload) : ProgressView :=
  if d.options.mode = Mode.audio ∧ optTruthyStr d.options.format then
    let format := toLowerStr (d.options.format.getD [])
    let multiplier : ℚ :=
      if format = "mp3".data then 1.67
      else if format = "m4a".data then 2.67
      else if format = "wav".data then 12.85
      else 1
    let copy1 : DownloadProgress := { d.progress with
        totalBytes := ((jsRound (d.progress.totalBytes * multiplier) : ℤ) : ℚ),
        audioTotalBytes :=
          ((jsRound (d.progress.audioTotalBytes * multiplier) : ℤ) : ℚ) }
    let copy2 : DownloadProgress :=
      if copy1.totalBytes > 0 then
        { copy1 with
            percentage := d.progress.downloadedBytes / copy1.totalBytes * 100 }
      else copy1
    ⟨copy2, d.result⟩
  else ⟨d.progress, d.result⟩

/-- Model of `getDownloadProgress` (src/unnamed/part_014 lines 56-130): a
missing id returns null; otherwise the stored entry is resampled and a
projected copy is returned. -/
def getDownloadProgress (now : ℚ) (jobId : Str) (reg : Registry) :
    Option ProgressView × Registry :=
  match mapGet reg jobId with
  | none => (none, reg)
  | some d =>
    let d1 := sampleSpeedEta now d
    (some (projectView d1), updateEntry reg jobId (fun _ => d1))

/-- Model of `registerDownload` (src/unnamed/part_014 lines 132-166); `now`
stands for `Date.now()`.  The initial file path joins the output folder with
the literal name `downloading`. -/
def registerDownload (jobId : Str) (options : DownloadOptions) (now : ℚ)
    (reg : Registry) : Registry :=
  if mapHas reg jobId then
    updateEntry reg jobId (fun d =>
      { d with
          isResuming := true,
          progress := { d.progress with status := Status.downloading } })
  else
    reg ++ [(jobId,
      { videoId := options.videoId,
        process := none,
        isPaused := false,
        progress :=
          { totalBytes := jsNumOr0 options.fileSize,
            downloadedBytes := 0,
            percentage := 0,
            speed := 0,
            eta := 0,
            status := Status.downloading,
            error := none,
            stage := if options.mode = Mode.video then Stage.video
                     else Stage.audio,
            videoTotalBytes := 0,
            audioTotalBytes := 0,
            videoDownloadedBytes := 0,
            audioDownloadedBytes := 0 },
        startTime := now,
        downloadedBytesAtLastCheck := 0,
        lastCheckTime := now,
        filePath := options.outputFolder ++ "/".data ++ "downloading".data,
        options := options,
        isResuming := false,
        result := none })]

/-- Model of `updateProgress` (src/unnamed/part_014 lines 168-192). -/
def updateProgress (jobId : Str) (downloadedBytes : ℚ) (reg : Registry) :
    Registry :=
  match mapGet reg jobId with
  | none => reg
  | some d =>
    let p0 := d.progress
    let p1 :=
      if p0.stage = Stage.video then
        { p0 with videoDownloadedBytes := downloadedBytes }
      else if p0.stage = Stage.audio then
        { p0 with audioDownloadedBytes := downloadedBytes }
      else p0
    let totalDownloaded := p1.videoDownloadedBytes + p1.audioDownloadedBytes
    let p2 := { p1 with downloadedBytes := totalDownloaded }
    let combinedTotal := p2.videoTotalBytes + p2.audioTotalBytes
    let p3 := { p2 with
        totalBytes := if combinedTotal > 0 then combinedTotal
                      else p2.totalBytes }
    let p4 :=
      if p3.totalBytes > 0 then
        { p3 with percentage := totalDownloaded / p3.totalBytes * 100 }
      else p3
    updateEntry reg jobId (fun _ => { d with progress := p4 })

/-- Model of `setStageTotalBytes` (src/unnamed/part_014 lines 195-210). -/
def setStageTotalBytes (jobId : Str) (totalBytes : ℚ) (reg : Registry) :
    Registry :=
  match mapGet reg jobId with
  | none => reg
  | some d =>
    let p0 := d.progress
    let p1 :=
      if p0.stage = Stage.video then { p0 with videoTotalBytes := totalBytes }
      else if p0.stage = Stage.audio then
        { p0 with audioTotalBytes := totalBytes }
      else p0
    let p2 := { p1 with totalBytes := p1.videoTotalBytes + p1.audioTotalBytes }
    updateEntry reg jobId (fun _ => { d with progress := p2 })

/-- Model of `setStage` (src/unnamed/part_014 lines 213-228). -/
def setStage (jobId : Str) (stage : Stage) (reg : Registry) : Registry :=
  match mapGet reg jobId with
  | none => reg
  | some d =>
    let p0 := d.progress
    let p1 :=
      if p0.stage = Stage.video ∧ stage = Stage.audio then
        { p0 with videoDownloadedBytes := p0.videoTotalBytes }
      else p0
    let p2 := { p1 with stage := stage }
    let p3 := if stage = Stage.merging then { p2 with percentage := 99 }
              else p2
    updateEntry reg jobId (fun _ => { d with progress := p3 })

/-- Model of `completeDownload` (src/unnamed/part_014 lines 230-256); the
guard on `finalBytes` is the JavaScript test `finalBytes && finalBytes > 0`,
where a zero number is falsy. -/
def completeDownload (jobId : Str) (finalBytes : Option ℚ)
    (result : Option DownloadResultInfo) (reg : Registry) : Registry :=
  match mapGet reg jobId with
  | none => reg
  | some d =>
    let d1 := { d with result := match result with
                                 | some r => some r
                                 | none => d.result }
    let p0 := { d1.progress with status := Status.completed }
    let p1 :=
      match finalBytes with
      | some n =>
        if n ≠ 0 ∧ n > 0 then { p0 with totalBytes := n, downloadedBytes := n }
        else { p0 with downloadedBytes := p0.totalBytes }
      | none => { p0 with downloadedBytes := p0.totalBytes }
    let p2 := { p1 with percentage := 100, eta := 0 }
    updateEntry reg jobId (fun _ => { d1 with progress := p2 })

/-- Model of `failDownload` (src/unnamed/part_014 lines 258-270); the error
message is stored only when truthy, and killing the process does not clear
the stored handle here. -/
def failDownload (jobId : Str) (error : Option Str) (reg : Registry) :
    Registry :=
  match mapGet reg jobId with
  | none => reg
  | some d =>
    let p1 := { d.progress with status := Status.failed }
    let p2 :=
      match error with
      | some e => if e.isEmpty then p1 else { p1 with error := some e }
      | none => p1
    updateEntry reg jobId (fun _ => { d with progress := p2 })

/-- Model of `pauseDownload` (src/unnamed/part_014 lines 272-290): mark
paused, terminate the subprocess and clear its handle. -/
def pauseDownload (jobId : Str) (reg : Registry) : Bool × Registry :=
  match mapGet reg jobId with
  | none => (false, reg)
  | some d =>
    (true, updateEntry reg jobId (fun _ =>
      { d with
          isPaused := true,
          process := none,
          progress := { d.progress with status := Status.paused } }))

/-- Model of `resumeDownload` (src/unnamed/part_014 lines 292-300). -/
def resumeDownload (jobId : Str) (reg : Registry) :
    Option DownloadOptions × Registry :=
  match mapGet reg jobId with
  | none => (none, reg)
  | some d =>
    (some d.options, updateEntry reg jobId (fun _ =>
      { d with
          isPaused := false,
          progress := { d.progress with status := Status.downloading } }))

/-- Model of `cancelDownload` (src/unnamed/part_014 lines 302-319): write the
canceled status and clear the process handle, then delete the whole entry
from the registry. -/
def cancelDownload (jobId : Str) (reg : Registry) : Bool × Registry :=
  match mapGet reg jobId with
  | none => (false, reg)
  | some d =>
    (true, mapDelete
      (updateEntry reg jobId (fun _ =>
        { d with
            process := none,
            progress := { d.progress with status := Status.canceled } }))
      jobId)

/-- Model of `removeDownload` (src/unnamed/part_014 lines 321-323). -/
def removeDownload (jobId : Str) (reg : Registry) : Registry :=
  mapDelete reg jobId

/-- Model of `setDownloadProcess` (src/unnamed/part_014 lines 325-330). -/
def setDownloadProcess (jobId : Str) (reg : Registry) : Registry :=
  match mapGet reg jobId with
  | none => reg
  | some d => updateEntry reg jobId (fun _ => { d with process := some () })

/-- Terminal statuses in the sense of the data model. -/
def isTerminal (s : Status) : Bool :=
  s = Status.completed || s = Status.failed || s = Status.canceled

/-- Modelled from the spec: the definition of the Progress Accountant
operation `setStatus` is absent from the sources; it is imported and called
by src/src/server/download.ts (lines 13 and 297-347) but not exported by
src/unnamed/part_014.  The specification states that it writes the given
status into the entry and is absorbing for the terminal statuses completed,
failed and canceled. -/
def setStatus (jobId : Str) (s : Status) (reg : Registry) : Registry :=
  match mapGet reg jobId with
  | none => reg
  | some d =>
    if isTerminal d.progress.status then reg
    else updateEntry reg jobId (fun _ =>
      { d with progress := { d.progress with status := s } })

end Manager

section Driver

/-- Split off the maximal digit prefix. -/
def digitRun (s : Str) : Str × Str :=
  (s.takeWhile Char.isDigit, s.dropWhile Char.isDigit)

/-- Attempt the percentage pattern at the head of the string: one or more
digits, an optional dot, further digits, then a percent sign.  Returns the
captured number token.  Greedy matching with backtracking collapses to this
deterministic scan because a shortened digit run is always followed by
another digit. -/
def matchNumPercentAt (s : Str) : Option Str :=
  let pr := digitRun s
  if pr.1 = [] then none
  else
    match pr.2 with
    | '.' :: rest2 =>
      let pr2 := digitRun rest2
      (match pr2.2 with
       | '%' :: _ => some (pr.1 ++ '.' :: pr2.1)
       | _ => none)
    | '%' :: _ => some pr.1
    | _ => none

/-- Leftmost match of the percentage pattern, the model of
`line.match` with the percent regular expression in
src/src/server/download.ts line 315. -/
def findPercentNum : Str → Option Str
  | [] => none
  | c :: rest =>
    match matchNumPercentAt (c :: rest) with
    | some tok => some tok
    | none => findPercentNum rest

/-- Unit letter classes of the size pattern; matching is case-insensitive. -/
def isKMGTPChar (c : Char) : Bool :=
  ['k', 'm', 'g', 't', 'p'].contains c.toLower

/-- Case-insensitive letter i. -/
def isIChar (c : Char) : Bool := c.toLower = 'i'

/-- Case-insensitive letter B. -/
def isBChar (c : Char) : Bool := c.toLower = 'b'

/-- Attempt the unit group at the head of the string: an optional size letter,
an optional letter i, then the mandatory letter B, case-insensitively, with
the regular-expression backtracking order. -/
def matchUnitAt : Str → Option Str
  | [] => none
  | c0 :: rest0 =>
    if isKMGTPChar c0 then
      match rest0 with
      | c1 :: rest1 =>
        if isIChar c1 then
          match rest1 with
          | c2 :: _ => if isBChar c2 then some [c0, c1, c2] else none
          | [] => none
        else if isBChar c1 then some [c0, c1]
        else none
      | [] => none
    else if isIChar c0 then
      match rest0 with
      | c1 :: _ => if isBChar c1 then some [c0, c1] else none
      | [] => none
    else if isBChar c0 then some [c0]
    else none

/-- Attempt the size pattern at the head of the string: the letters o f,
at least one whitespace, an optional tilde, a number, then a unit.  Returns
the captured number and unit tokens. -/
def matchSizeAt (s : Str) : Option (Str × Str) :=
  match s with
  | o :: f :: rest =>
    if o.toLower = 'o' ∧ f.toLower = 'f' then
      let ws := rest.takeWhile isJsWs
      let rest1 := rest.dropWhile isJsWs
      if ws = [] then none
      else
        let rest2 := match rest1 with
                     | '~' :: r => r
                     | r => r
        let pr := digitRun rest2
        if pr.1 = [] then none
        else
          match pr.2 with
          | '.' :: rest4 =>
            let pr2 := digitRun rest4
            (match matchUnitAt pr2.2 with
             | some u => some (pr.1 ++ '.' :: pr2.1, u)
             | none => none)
          | rest3 =>
            match matchUnitAt rest3 with
            | some u => some (pr.1, u)
            | none => none
    else none
  | _ => none

/-- Leftmost match of the size pattern, the model of `line.match` with the
size regular expression in src/src/server/download.ts line 316. -/
def findSizeNum : Str → Option (Str × Str)
  | [] => none
  | c :: rest =>
    match matchSizeAt (c :: rest) with
    | some r => some r
    | none => findSizeNum rest

/-- Numeric value of a digit string. -/
def digitsToNat (ds : Str) : ℕ :=
  ds.foldl (fun acc c => 10 * acc + (c.toNat - 48)) 0

/-- Value of a captured number token (digits, optional dot, digits), the model
of `parseFloat` on such tokens. -/
def parseNumTok (tok : Str) : ℚ :=
  let intPart := tok.takeWhile Char.isDigit
  let rest := tok.dropWhile Char.isDigit
  let frac : ℚ :=
    match rest with
    | '.' :: ds => (digitsToNat ds : ℚ) / ((10 : ℚ) ^ ds.length)
    | _ => 0
  (digitsToNat intPart : ℚ) + frac

/-- Model of the unit conversion chain in src/src/server/download.ts
lines 323-326.  The `includes` tests are case-sensitive even though the
regular expression that produced the unit token is case-insensitive, and no
branch tests for the SI units, so a unit without the exact substrings Ki, Mi
or Gi leaves the number unscaled. -/
def convertUnit (unit : Str) (n : ℚ) : ℚ :=
  if containsSub unit ("Ki".data) || containsSub unit ("KiB".data) then
    n * 1024
  else if containsSub unit ("Mi".data) || containsSub unit ("MiB".data) then
    n * 1024 ^ 2
  else if containsSub unit ("Gi".data) || containsSub unit ("GiB".data) then
    n * 1024 ^ 3
  else n

/-- Model of the progress branch of `processOutput`
(src/src/server/download.ts lines 313-342): on a line containing the download
marker and a percent sign, when both the size and the percentage patterns
match, the pair of arguments handed to `setStageTotalBytes` and
`updateProgress` is computed as total bytes and total times pct over 100. -/
def parseDownloadProgress (line : Str) : Option (ℚ × ℚ) :=
  if containsSub line ("[download]".data) && containsSub line ("%".data) then
    match findSizeNum line, findPercentNum line with
    | some nu, some pctTok =>
      let totalBytes := convertUnit nu.2 (parseNumTok nu.1)
      let percentage := parseNumTok pctTok
      some (totalBytes, totalBytes * percentage / 100)
    | _, _ => none
  else none

/-- The registry effect of one progress line: `setStageTotalBytes` with the
converted total, then `updateProgress` with the derived downloaded bytes
(src/src/server/download.ts lines 329-335). -/
def applyProgressLine (jobId : Str) (line : Str) (reg : Registry) : Registry :=
  match parseDownloadProgress line with
  | some td => updateProgress jobId td.2 (setStageTotalBytes jobId td.1 reg)
  | none => reg

end Driver

section CloseHandler

/-- A directory entry as the close handler observes it through `readdirSync`
and `statSync`; names are relative to the effective output folder. -/
structure FileEntry where
  name : Str
  isFile : Bool
  mtimeMs : ℚ
  size : ℚ
deriving DecidableEq

/-- Model of the temp-file search loop (src/src/server/download.ts
lines 388-398): the first entry that is not an unfinished part file and whose name
starts with the temp basename. -/
def findTempFile (files : List FileEntry) (tempBasename : Str) :
    Option FileEntry :=
  files.find? (fun f =>
    !endsWithStr f.name (".part".data) && startsWithStr f.name tempBasename)

/-- Model of the fallback scan (src/src/server/download.ts lines 401-412):
the regular file, part files excluded, with the strictly largest modification time,
starting from zero. -/
def fallbackLatest (files : List FileEntry) : Option FileEntry :=
  (files.foldl
    (fun acc f =>
      if endsWithStr f.name (".part".data) then acc
      else if f.isFile ∧ f.mtimeMs > acc.1 then (f.mtimeMs, some f)
      else acc)
    ((0 : ℚ), (none : Option FileEntry))).2

/-- Model of `path.extname` on a bare file name: the suffix from the last dot
when that dot is not the leading character. -/
def extnameOf (name : Str) : Str :=
  match ((List.range name.length).filter
          (fun i => name.getD i ' ' = '.')).getLast? with
  | some i => if i = 0 then [] else name.drop i
  | none => []

/-- Candidate built by the duplicate loop: base name, a space, the counter in
parentheses, then the extension (src/src/server/download.ts line 169). -/
def candidateName (base ext : Str) (n : ℕ) : Str :=
  base ++ " (".data ++ Nat.toDigits 10 n ++ ")".data ++ ext

/-- Counter loop of `getUniqueFilename`; the fuel is chosen large enough that
a free candidate is always found before it runs out. -/
def uniqueNameAux (names : List Str) (base ext : Str) : ℕ → ℕ → Str
  | 0, n => candidateName base ext n
  | fuel + 1, n =>
    let cand := candidateName base ext n
    if names.contains cand then uniqueNameAux names base ext fuel (n + 1)
    else cand

/-- Model of `getUniqueFilename` (src/src/server/download.ts lines 156-176)
at the level of names inside one directory: return the target unchanged when
it does not exist, else append the first free counter suffix from two
upward. -/
def getUniqueFilename (names : List Str) (target : Str) : Str :=
  if !names.contains target then target
  else
    let ext := extnameOf target
    let base := target.take (target.length - ext.length)
    uniqueNameAux names base ext (names.length + 1) 2

/-- Display string for the result record (src/src/server/download.ts
lines 448 and 456): the size in binary megabytes with two decimals; the
decimal rounding of `toFixed` is modelled as round half up. -/
def sizeMBStr (size : ℚ) : Str :=
  let cents := (jsRound (size / (1024 * 1024) * 100)).toNat
  let frac := cents % 100
  Nat.toDigits 10 (cents / 100) ++ ".".data
    ++ (if frac < 10 then '0' :: Nat.toDigits 10 frac
        else Nat.toDigits 10 frac)
    ++ " MB".data

/-- How the close handler settles the promise. -/
inductive CloseOutcome where
  | rejectPaused
  | rejectCanceled
  | resolveSuccess (fileName : Str)
  | rejectNoFile
  | rejectInterrupted (code : Option ℤ)
deriving DecidableEq

/-- Observable effect of one run of the close handler: the settled outcome,
the registry afterwards, whether the directory was searched, and the rename
that was performed, if any. -/
structure CloseResult where
  outcome : CloseOutcome
  registry : Registry
  searchedFiles : Bool
  renamed : Option (Str × Str)
deriving DecidableEq

/-- Model of the exit-code branches of the close handler
(src/src/server/download.ts lines 379-482), entered after the initial status
guard.  On exit code zero the directory is searched, the artifact renamed and
`completeDownload` recorded; on any other code the status is re-read and the
promise rejected. -/
def closeExitPath (code : Option ℤ) (jobId : Option Str) (tempBasename : Str)
    (resolvedFilename : Option Str) (folder : Str) (files : List FileEntry)
    (now : ℚ) (reg : Registry) : CloseResult :=
  if code = some 0 then
    let names := files.map (fun x => x.name)
    let found :=
      match findTempFile files tempBasename with
      | some f => some f
      | none => fallbackLatest files
    match found with
    | some f =>
      let ext := extnameOf f.name
      match resolvedFilename with
      | some rf =>
        let targetName := rf ++ ext
        let finalName := getUniqueFilename names targetName
        let info : DownloadResultInfo :=
          ⟨folder ++ "/".data ++ finalName, finalName, sizeMBStr f.size⟩
        let reg2 :=
          match jobId with
          | some j => completeDownload j (some f.size) (some info) reg
          | none => reg
        ⟨CloseOutcome.resolveSuccess finalName, reg2, true,
          some (f.name, finalName)⟩
      | none =>
        let sanitized := sanitizeFilename f.name
        let renamedPair :=
          if sanitized ≠ f.name ∧ !names.contains sanitized then
            some (f.name, sanitized)
          else none
        let finalName :=
          match renamedPair with
          | some pr => pr.2
          | none => f.name
        let info : DownloadResultInfo :=
          ⟨folder ++ "/".data ++ finalName, finalName, sizeMBStr f.size⟩
        let reg2 :=
          match jobId with
          | some j => completeDownload j (some f.size) (some info) reg
          | none => reg
        ⟨CloseOutcome.resolveSuccess finalName, reg2, true, renamedPair⟩
    | none =>
      let reg2 :=
        match jobId with
        | some j =>
          failDownload j
            (some "No complete file found (only .part files exist)".data) reg
        | none => reg
      ⟨CloseOutcome.rejectNoFile, reg2, true, none⟩
  else
    match jobId with
    | some j =>
      let pv := getDownloadProgress now j reg
      match pv.1 with
      | some v =>
        if v.progress.status = Status.paused then
          ⟨CloseOutcome.rejectPaused, pv.2, false, none⟩
        else if v.progress.status = Status.canceled then
          ⟨CloseOutcome.rejectCanceled, pv.2, false, none⟩
        else ⟨CloseOutcome.rejectInterrupted code, pv.2, false, none⟩
      | none => ⟨CloseOutcome.rejectInterrupted code, pv.2, false, none⟩
    | none => ⟨CloseOutcome.rejectInterrupted code, reg, false, none⟩

/-- Model of the whole close handler (src/src/server/download.ts
lines 367-483): first re-read the status from the registry and reject a
paused or canceled job without touching files, then branch on the exit
code. -/
def closeHandler (code : Option ℤ) (jobId : Option Str) (tempBasename : Str)
    (resolvedFilename : Option Str) (folder : Str) (files : List FileEntry)
    (now : ℚ) (reg : Registry) : CloseResult :=
  match jobId with
  | some j =>
    let pv := getDownloadProgress now j reg
    match pv.1 with
    | some v =>
      if v.progress.status = Status.paused then
        ⟨CloseOutcome.rejectPaused, pv.2, false, none⟩
      else if v.progress.status = Status.canceled then
        ⟨CloseOutcome.rejectCanceled, pv.2, false, none⟩
      else
        closeExitPath code (some j) tempBasename resolvedFilename folder
          files now pv.2
    | none =>
      closeExitPath code (some j) tempBasename resolvedFilename folder files
        now pv.2
  | none =>
    closeExitPath code none tempBasename resolvedFilename folder files now reg

end CloseHandler

section Scenarios

/-- The job id used by the concrete scenarios below. -/
def jJ : Str := "J".data

/-- Options of an audio job converting to mp3, as the download route builds
them. -/
def optsAudioMp3 : DownloadOptions :=
  { url := "https://example.test/watch".data,
    videoId := "vid".data,
    jobId := some jJ,
    outputFolder := "out".data,
    mode := Mode.audio,
    quality := none,
    format := some ("mp3".data),
    fileSize := none,
    resolvedFilename := some ("Hello".data),
    downloadSubtitles := none,
    subtitleLanguage := none,
    createPerChannelFolder := none,
    channel := none }

/-- Options of a 1080p video job. -/
def optsVideo1080 : DownloadOptions :=
  { optsAudioMp3 with
      mode := Mode.video,
      format := none,
      quality := some ("1080p".data) }

/-- A default entry used as the fallback argument of `Option.getD` when a
theorem is instantiated at a registry that provably holds the key. -/
def entry0 : ActiveDownload :=
  { videoId := [],
    process := none,
    isPaused := false,
    progress :=
      { totalBytes := 0, downloadedBytes := 0, percentage := 0, speed := 0,
        eta := 0, status := Status.downloading, error := none,
        stage := Stage.video, videoTotalBytes := 0, audioTotalBytes := 0,
        videoDownloadedBytes := 0, audioDownloadedBytes := 0 },
    startTime := 0,
    downloadedBytesAtLastCheck := 0,
    lastCheckTime := 0,
    filePath := [],
    options := optsAudioMp3,
    isResuming := false,
    result := none }

/-- Registry of one audio mp3 job driven to completion: registered, stage
total 1000 bytes, fully downloaded, then completed without a final size. -/
def regAudioCompleted : Registry :=
  completeDownload jJ none none
    (updateProgress jJ 1000
      (setStageTotalBytes jJ 1000
        (registerDownload jJ optsAudioMp3 0 [])))

/-- Registry of one video job after the video stage was finalised by the
stage switch: stage total 100, 40 bytes downloaded, then the switch to the
audio stage. -/
def regVideoStaged : Registry :=
  setStage jJ Stage.audio
    (updateProgress jJ 40
      (setStageTotalBytes jJ 100
        (registerDownload jJ optsVideo1080 0 [])))

/-- The staged video job after completion with a final size of 7 bytes. -/
def regVideoCompleted7 : Registry :=
  completeDownload jJ (some 7) none regVideoStaged

/-- A plainly completed video job. -/
def regVideoCompletedPlain : Registry :=
  completeDownload jJ none none (registerDownload jJ optsVideo1080 0 [])

/-- Registry state right after an audio job was registered and then
canceled. -/
def regAfterCancel : Registry :=
  (cancelDownload jJ (registerDownload jJ optsAudioMp3 0 [])).2

/-- Registry state right after an audio job was registered and paused. -/
def regPausedAudio : Registry :=
  (pauseDownload jJ (registerDownload jJ optsAudioMp3 0 [])).2

/-- Output directory as the close handler observes it after the extractor was
terminated: the finished temp artifact of the job is present. -/
def cancelFiles : List FileEntry :=
  [⟨"J.temp.mp3".data, true, 5, 1048576⟩]

end Scenarios

section Theorems

theorem mapGet_updateEntry_self (reg : Registry) (k : Str)
    (f : ActiveDownload → ActiveDownload) :
    mapGet (updateEntry reg k f) k = (mapGet reg k).map f := by
  induction reg with
  | nil => rfl
  | cons p rest ih =>
    by_cases h : p.1 = k
    · simp [updateEntry, mapGet, h]
    · simp [updateEntry, mapGet, h, ih]

theorem mapGet_updateEntry_ne (reg : Registry) (k k2 : Str)
    (f : ActiveDownload → ActiveDownload) (h : k2 ≠ k) :
    mapGet (updateEntry reg k f) k2 = mapGet reg k2 := by
  induction reg with
  | nil => rfl
  | cons p rest ih =>
    have hk : ¬ k = k2 := fun hc => h hc.symm
    by_cases hp : p.1 = k
    · simp [updateEntry, mapGet, hp, hk, ih]
    · by_cases hp2 : p.1 = k2
      · simp [updateEntry, mapGet, hp, hp2, h]
      · simp [updateEntry, mapGet, hp, hp2, ih]

theorem sampleSpeedEta_progress_fields (now : ℚ) (d : ActiveDownload) :
    (sampleSpeedEta now d).progress.percentage = d.progress.percentage
    ∧ (sampleSpeedEta now d).options = d.options
    ∧ (sampleSpeedEta now d).progress.status = d.progress.status := by
  by_cases h1 : (now - d.lastCheckTime) / 1000 > 1 / 2
  · simp only [sampleSpeedEta, if_pos h1]
    split <;> simp
  · simp only [sampleSpeedEta, if_neg h1]
    simp

/-- C1: after `cancelDownload` removed the registry entry, an extractor exit
with code zero is processed by the success path of the close handler: the
directory is searched, the temp artifact is renamed to the resolved name and
the handler resolves with success, instead of rejecting with the canceled
message and leaving the files alone. -/
theorem C1_exit_zero_after_cancel_takes_success_path :
    (cancelDownload jJ (registerDownload jJ optsAudioMp3 0 [])).1 = true
    ∧ regAfterCancel = []
    ∧ (closeHandler (some 0) (some jJ) ("J.temp".data) (some ("Hello".data))
        ("out".data) cancelFiles 0 regAfterCancel).outcome
        = CloseOutcome.resolveSuccess ("Hello.mp3".data)
    ∧ (closeHandler (some 0) (some jJ) ("J.temp".data) (some ("Hello".data))
        ("out".data) cancelFiles 0 regAfterCancel).searchedFiles = true
    ∧ (closeHandler (some 0) (some jJ) ("J.temp".data) (some ("Hello".data))
        ("out".data) cancelFiles 0 regAfterCancel).renamed
        = some ("J.temp.mp3".data, "Hello.mp3".data) := by
  decide

/-- C3, counterexample: a completed audio job with format mp3 is reported by
`getDownloadProgress` with status completed but percentage 10000 over 167,
which is not 100, because the read-side projection rescales the total by the
mp3 factor and recomputes the percentage. -/
theorem C3_completed_audio_projection_counterexample :
    ((getDownloadProgress 0 jJ regAudioCompleted).1.map
      (fun v => (v.progress.status, v.progress.percentage)))
      = some (Status.completed, 10000 / 167)
    ∧ ((10000 / 167 : ℚ) ≠ 100) := by
  decide

/-- C4, counterexample: on a download line whose size is given with the SI
unit MB, the driver passes the unscaled number 10 to `setStageTotalBytes`
and 5 to `updateProgress`, converting with neither the decimal nor the
binary megabyte factor. -/
theorem C4_si_unit_not_converted_counterexample :
    parseDownloadProgress ("[download]  50.0% of ~10.0MB".data) = some (10, 5)
    ∧ ((10 : ℚ) ≠ 10 * 1000000) ∧ ((10 : ℚ) ≠ 10 * 1024 ^ 2) := by
  decide

/-- C5, counterexample: the stage switch from video to audio finalises the
video counter to 100 while the stored downloaded bytes stay at 40, and a
later completion with final size 7 sets downloaded bytes to 7 while the
stage counters stay at 100 and 0; in both states downloaded bytes differ
from the stage sum. -/
theorem C5_sum_invariant_counterexample :
    ((mapGet regVideoStaged jJ).map (fun d =>
      (d.progress.downloadedBytes, d.progress.videoDownloadedBytes,
       d.progress.audioDownloadedBytes))) = some (40, 100, 0)
    ∧ ((40 : ℚ) ≠ 100 + 0)
    ∧ ((mapGet regVideoCompleted7 jJ).map (fun d =>
      (d.progress.downloadedBytes, d.progress.videoDownloadedBytes,
       d.progress.audioDownloadedBytes))) = some (7, 100, 0)
    ∧ ((7 : ℚ) ≠ 100 + 0) := by
  decide

/-- C7, counterexample: validating the template index dash title dash quality
for single content in video mode yields an invalid verdict whose kind is
invalid underscore index, not invalid underscore tag as claimed. -/
theorem C7_single_index_template_counterexample :
    validateTemplate ("<index> - <title> - <quality>".data)
      ContentType.single Mode.video
      = ⟨false, some ValidationType.invalid_index⟩
    ∧ ValidationType.invalid_index ≠ ValidationType.invalid_tag := by
  decide

/-- C7, amended: validating the template index dash title dash quality for
single content in video mode yields an invalid verdict whose kind is invalid
underscore index. -/
theorem C7_single_index_template_amended :
    (validateTemplate ("<index> - <title> - <quality>".data)
      ContentType.single Mode.video).valid = false
    ∧ (validateTemplate ("<index> - <title> - <quality>".data)
      ContentType.single Mode.video).type = some ValidationType.invalid_index := by
  decide

theorem mem_replaceChar {y c : Char} {r s : Str}
    (h : y ∈ replaceChar c r s) : y ∈ r ∨ (y ∈ s ∧ y ≠ c) := by
  induction s with
  | nil => simp [replaceChar] at h
  | cons x xs ih =>
    simp only [replaceChar, List.mem_append] at h
    cases h with
    | inl h1 =>
      by_cases hx : x = c
      · rw [if_pos hx] at h1
        exact Or.inl h1
      · rw [if_neg hx] at h1
        simp at h1
        rw [h1]
        exact Or.inr ⟨List.mem_cons_self x xs, hx⟩
    | inr h2 =>
      rcases ih h2 with h3 | ⟨h4, h5⟩
      · exact Or.inl h3
      · exact Or.inr ⟨List.mem_cons_of_mem _ h4, h5⟩

theorem replaceChar_eq_self {c : Char} {r s : Str} (h : c ∉ s) :
    replaceChar c r s = s := by
  induction s with
  | nil => rfl
  | cons x xs ih =>
    have hx : ¬ x = c := fun hc => h (hc ▸ List.mem_cons_self x xs)
    simp [replaceChar, hx, ih (fun hm => h (List.mem_cons_of_mem _ hm))]

theorem mem_applyPairs {y : Char} {ps : List (Char × Str)} {s : Str}
    (h : y ∈ applyPairs ps s) :
    (∃ p ∈ ps, y ∈ p.2) ∨ (y ∈ s ∧ ∀ p ∈ ps, y ≠ p.1) := by
  induction ps generalizing s with
  | nil => exact Or.inr ⟨h, by simp⟩
  | cons p tl ih =>
    have h0 : y ∈ applyPairs tl (replaceChar p.1 p.2 s) := h
    rcases ih h0 with ⟨q, hq, hyq⟩ | ⟨hmem, hall⟩
    · exact Or.inl ⟨q, List.mem_cons_of_mem _ hq, hyq⟩
    · rcases mem_replaceChar hmem with h2 | ⟨h3, h4⟩
      · exact Or.inl ⟨p, List.mem_cons_self p tl, h2⟩
      · refine Or.inr ⟨h3, ?_⟩
        intro q hq
        rcases List.mem_cons.mp hq with hq1 | hq2
        · rw [hq1]; exact h4
        · exact hall q hq2

theorem applyPairs_eq_self {ps : List (Char × Str)} {s : Str}
    (h : ∀ p ∈ ps, p.1 ∉ s) : applyPairs ps s = s := by
  induction ps with
  | nil => rfl
  | cons p tl ih =>
    have h1 : replaceChar p.1 p.2 s = s :=
      replaceChar_eq_self (h p (List.mem_cons_self p tl))
    show applyPairs tl (replaceChar p.1 p.2 s) = s
    rw [h1]
    exact ih (fun q hq => h q (List.mem_cons_of_mem _ hq))

theorem mem_trimTrailingWsDots {y : Char} {s : Str}
    (h : y ∈ trimTrailingWsDots s) : y ∈ s := by
  unfold trimTrailingWsDots at h
  rw [List.mem_reverse] at h
  have h2 := (List.dropWhile_sublist
    (l := s.reverse) (fun c => isJsWs c || c = '.')).subset h
  rwa [List.mem_reverse] at h2

theorem dropWhile_self_idem {α : Type} (p : α → Bool) (l : List α) :
    List.dropWhile p (List.dropWhile p l) = List.dropWhile p l := by
  induction l with
  | nil => rfl
  | cons x xs ih =>
    by_cases hx : p x
    · simp [List.dropWhile_cons, hx, ih]
    · simp [List.dropWhile_cons, hx]

theorem trimTrailingWsDots_idem (s : Str) :
    trimTrailingWsDots (trimTrailingWsDots s) = trimTrailingWsDots s := by
  unfold trimTrailingWsDots
  rw [List.reverse_reverse, dropWhile_self_idem]

theorem sanitizeFilename_no_reserved (s : Str) :
    ∀ y ∈ sanitizeFilename s, y ∉ reservedChars := by
  intro y hy hres
  have hy2 : y ∈ applyPairs illegalPairs s := mem_trimTrailingWsDots hy
  rcases mem_applyPairs hy2 with ⟨p, hp, hyp⟩ | ⟨_, hall⟩
  · have hno : ∀ p ∈ illegalPairs, ∀ z ∈ p.2, z ∉ reservedChars := by decide
    exact hno p hp y hyp hres
  · have hsub : ∀ z ∈ reservedChars, z ∈ illegalPairs.map Prod.fst := by decide
    rcases List.mem_map.mp (hsub y hres) with ⟨p, hp, hpy⟩
    exact (hall p hp) hpy.symm

theorem sanitizeFilename_idem (s : Str) :
    sanitizeFilename (sanitizeFilename s) = sanitizeFilename s := by
  unfold sanitizeFilename
  have h1 : applyPairs illegalPairs
      (trimTrailingWsDots (applyPairs illegalPairs s))
      = trimTrailingWsDots (applyPairs illegalPairs s) := by
    apply applyPairs_eq_self
    intro p hp hmem
    have hres : p.1 ∈ reservedChars := by
      have hall : ∀ q ∈ illegalPairs, q.1 ∈ reservedChars := by decide
      exact hall p hp
    exact sanitizeFilename_no_reserved s p.1 hmem hres
  rw [h1, trimTrailingWsDots_idem]

/-- C2: for a job whose stored status is terminal, `setStatus` leaves the
registry, and in particular the stored status, unchanged.  The `setStatus`
operation itself is modelled from the spec because its definition is not
among the sources. -/
theorem C2_setStatus_absorbing_for_terminal (reg : Registry) (jobId : Str)
    (s : Status)
    (hterm : (mapGet reg jobId).map (fun d => isTerminal d.progress.status)
      = some true) :
    setStatus jobId s reg = reg := by
  cases hget : mapGet reg jobId with
  | none => rw [hget] at hterm; simp at hterm
  | some d =>
    rw [hget] at hterm
    simp only [Option.map_some', Option.some.injEq] at hterm
    simp [setStatus, hget, hterm]

theorem C2_setStatus_absorbing_witness :
    setStatus jJ Status.downloading regAudioCompleted = regAudioCompleted :=
  C2_setStatus_absorbing_for_terminal regAudioCompleted jJ Status.downloading
    (by decide)

/-- C3, amended: `completeDownload` stores status completed and percentage
100, and `getDownloadProgress` reports percentage 100 for such a job unless
the job is in audio mode with a truthy format, in which case the read-side
projection recomputes the percentage from the rescaled total (see the
counterexample). -/
theorem C3_completed_percentage_amended :
    (∀ (reg : Registry) (jobId : Str) (fb : Option ℚ)
      (r : Option DownloadResultInfo) (d : ActiveDownload),
      mapGet (completeDownload jobId fb r reg) jobId = some d →
      d.progress.status = Status.completed ∧ d.progress.percentage = 100)
    ∧ (∀ (now : ℚ) (reg : Registry) (jobId : Str) (d : ActiveDownload),
      mapGet reg jobId = some d →
      d.progress.percentage = 100 →
      ¬(d.options.mode = Mode.audio ∧ optTruthyStr d.options.format = true) →
      ((getDownloadProgress now jobId reg).1.map
        (fun v => v.progress.percentage)) = some 100) := by
  constructor
  · intro reg jobId fb r d hd
    cases hget : mapGet reg jobId with
    | none =>
      simp only [completeDownload, hget] at hd
      simp at hd
    | some d0 =>
      simp only [completeDownload, hget] at hd
      rw [mapGet_updateEntry_self, hget] at hd
      simp only [Option.map_some', Option.some.injEq] at hd
      subst hd
      cases fb with
      | none => simp
      | some n =>
        by_cases hn : n ≠ 0 ∧ n > 0
        · simp [hn]
        · simp [hn]
  · intro now reg jobId d hget hpct hnot
    have h1 := sampleSpeedEta_progress_fields now d
    have hcond : ¬((sampleSpeedEta now d).options.mode = Mode.audio
        ∧ optTruthyStr (sampleSpeedEta now d).options.format = true) := by
      rw [h1.2.1]; exact hnot
    simp only [getDownloadProgress, hget, Option.map_some']
    simp [projectView, hcond, h1.1, hpct]

theorem C3_completed_percentage_witness :
    ((mapGet regVideoCompletedPlain jJ).getD entry0).progress.status
      = Status.completed
    ∧ ((mapGet regVideoCompletedPlain jJ).getD entry0).progress.percentage
      = 100
    ∧ ((getDownloadProgress 0 jJ regVideoCompletedPlain).1.map
        (fun v => v.progress.percentage)) = some 100 := by
  have h1 := C3_completed_percentage_amended.1
    (registerDownload jJ optsVideo1080 0 []) jJ none none
    ((mapGet regVideoCompletedPlain jJ).getD entry0) (by decide)
  have h2 := C3_completed_percentage_amended.2 0 regVideoCompletedPlain jJ
    ((mapGet regVideoCompletedPlain jJ).getD entry0)
    (by decide) (by decide) (by decide)
  exact ⟨h1.1, h1.2, h2⟩

/-- C4, amended: the driver hands `setStageTotalBytes` the parsed size and
`updateProgress` that size times the parsed percentage over 100, where the
size is scaled by a binary factor only for the units containing the exact
substrings Ki, Mi or Gi; the plain byte unit and the SI units KB, MB, GB
pass through unconverted. -/
theorem C4_progress_line_amended :
    (∀ n : ℚ,
      convertUnit ("KiB".data) n = n * 1024
      ∧ convertUnit ("MiB".data) n = n * 1024 ^ 2
      ∧ convertUnit ("GiB".data) n = n * 1024 ^ 3
      ∧ convertUnit ("B".data) n = n
      ∧ convertUnit ("KB".data) n = n
      ∧ convertUnit ("MB".data) n = n
      ∧ convertUnit ("GB".data) n = n)
    ∧ (∀ (line : Str) (nu : Str × Str) (pctTok : Str),
      containsSub line ("[download]".data) = true →
      containsSub line ("%".data) = true →
      findSizeNum line = some nu →
      findPercentNum line = some pctTok →
      parseDownloadProgress line
        = some (convertUnit nu.2 (parseNumTok nu.1),
            convertUnit nu.2 (parseNumTok nu.1) * parseNumTok pctTok / 100)) := by
  constructor
  · intro n
    exact ⟨rfl, rfl, rfl, rfl, rfl, rfl, rfl⟩
  · intro line nu pctTok h1 h2 h3 h4
    simp [parseDownloadProgress, h1, h2, h3, h4]

theorem C4_progress_line_witness :
    parseDownloadProgress ("[download] 100% of 5KiB".data)
      = some (convertUnit ("KiB".data) (parseNumTok ("5".data)),
          convertUnit ("KiB".data) (parseNumTok ("5".data))
            * parseNumTok ("100".data) / 100) :=
  C4_progress_line_amended.2 ("[download] 100% of 5KiB".data)
    ("5".data, "KiB".data) ("100".data)
    (by decide) (by decide) (by decide) (by decide)

/-- C5, amended: `updateProgress` re-establishes that the stored downloaded
bytes equal the sum of the stage counters; `setStage` and `completeDownload`
do not maintain this sum (see the counterexample). -/
theorem C5_updateProgress_restores_sum (reg : Registry) (jobId : Str)
    (n : ℚ) (d : ActiveDownload)
    (hd : mapGet (updateProgress jobId n reg) jobId = some d) :
    d.progress.downloadedBytes
      = d.progress.videoDownloadedBytes + d.progress.audioDownloadedBytes := by
  cases hget : mapGet reg jobId with
  | none =>
    simp only [updateProgress, hget] at hd
    simp at hd
  | some d0 =>
    simp only [updateProgress, hget] at hd
    rw [mapGet_updateEntry_self, hget] at hd
    simp only [Option.map_some', Option.some.injEq] at hd
    subst hd
    cases hstage : d0.progress.stage <;>
      (simp only [hstage]; repeat' split; all_goals simp_all)

theorem C5_updateProgress_sum_witness :
    (((mapGet (updateProgress jJ 40
        (setStageTotalBytes jJ 100 (registerDownload jJ optsVideo1080 0 [])))
        jJ).getD entry0).progress.downloadedBytes)
      = (((mapGet (updateProgress jJ 40
          (setStageTotalBytes jJ 100 (registerDownload jJ optsVideo1080 0 [])))
          jJ).getD entry0).progress.videoDownloadedBytes)
        + (((mapGet (updateProgress jJ 40
            (setStageTotalBytes jJ 100 (registerDownload jJ optsVideo1080 0 [])))
            jJ).getD entry0).progress.audioDownloadedBytes) :=
  C5_updateProgress_restores_sum
    (setStageTotalBytes jJ 100 (registerDownload jJ optsVideo1080 0 []))
    jJ 40 _ (by decide)

/-- C6: re-registering an existing job id flips `isResuming` to true, sets
the status back to downloading, and changes nothing else: the whole entry is
the old entry with exactly these two fields replaced, and all other registry
keys are untouched. -/
theorem C6_register_resume_preserves_entry (reg : Registry) (jobId : Str)
    (options : DownloadOptions) (now : ℚ) (d : ActiveDownload)
    (hget : mapGet reg jobId = some d) :
    mapGet (registerDownload jobId options now reg) jobId
      = some { d with
          isResuming := true,
          progress := { d.progress with status := Status.downloading } }
    ∧ ∀ k, k ≠ jobId →
        mapGet (registerDownload jobId options now reg) k = mapGet reg k := by
  have hhas : mapHas reg jobId = true := by simp [mapHas, hget]
  constructor
  · simp [registerDownload, hhas, mapGet_updateEntry_self, hget]
  · intro k hk
    simp [registerDownload, hhas, mapGet_updateEntry_ne _ _ _ _ hk]

theorem C6_register_resume_witness :
    mapGet (registerDownload jJ optsAudioMp3 5 regPausedAudio) jJ
      = some { (mapGet regPausedAudio jJ).getD entry0 with
          isResuming := true,
          progress := { ((mapGet regPausedAudio jJ).getD entry0).progress with
            status := Status.downloading } } :=
  (C6_register_resume_preserves_entry regPausedAudio jJ optsAudioMp3 5
    ((mapGet regPausedAudio jJ).getD entry0) (by decide)).1

/-- C8: both sanitizers are one and the same replacement pipeline, the
pipeline is idempotent, and none of the nine reserved filename characters
survives in its output. -/
theorem C8_sanitize_idempotent_and_reserved_free :
    (∀ s : Str, sanitizeFilename (sanitizeFilename s) = sanitizeFilename s)
    ∧ (∀ s : Str, ∀ y ∈ sanitizeFilename s, y ∉ reservedChars)
    ∧ sanitizeMetadata = sanitizeFilename :=
  ⟨sanitizeFilename_idem, sanitizeFilename_no_reserved, rfl⟩

theorem C8_sanitize_witness :
    sanitizeFilename (sanitizeFilename ("a:b*c?. ".data))
      = sanitizeFilename ("a:b*c?. ".data)
    ∧ ('a' ∉ reservedChars) :=
  ⟨C8_sanitize_idempotent_and_reserved_free.1 ("a:b*c?. ".data),
   C8_sanitize_idempotent_and_reserved_free.2.1 ("a:b*c?. ".data) 'a'
     (by decide)⟩

/-- C9: writing a template record and reading it back returns exactly the
written record (the parsed-tree level identifies serialized text modulo JSON
whitespace, and the encoding is injective), and reading a missing settings
file returns the four default templates. -/
theorem C9_settings_roundtrip_and_defaults :
    (∀ (t : NamingTemplates) (file : SettingsFile),
      getNamingTemplates (setNamingTemplates t file) = encodeTemplates t)
    ∧ (∀ t1 t2 : NamingTemplates, encodeTemplates t1 = encodeTemplates t2 →
        t1 = t2)
    ∧ getNamingTemplates none = encodeTemplates getDefaultNamingTemplates := by
  refine ⟨fun t file => rfl, ?_, rfl⟩
  intro t1 t2 h
  obtain ⟨⟨sv1, sa1⟩, ⟨pv1, pa1⟩⟩ := t1
  obtain ⟨⟨sv2, sa2⟩, ⟨pv2, pa2⟩⟩ := t2
  simp only [encodeTemplates, Json.obj.injEq, List.cons.injEq, Prod.mk.injEq,
    Json.str.injEq, and_true, List.nil_eq] at h
  obtain ⟨⟨-, h1, h2⟩, -, h3, h4⟩ := h
  rw [h1.2, h2.2, h3.2, h4.2]

theorem C9_settings_witness :
    getNamingTemplates (setNamingTemplates getDefaultNamingTemplates none)
      = encodeTemplates getDefaultNamingTemplates
    ∧ getDefaultNamingTemplates = getDefaultNamingTemplates :=
  ⟨C9_settings_roundtrip_and_defaults.1 getDefaultNamingTemplates none,
   C9_settings_roundtrip_and_defaults.2.1 getDefaultNamingTemplates
     getDefaultNamingTemplates rfl⟩

/-- C10: every download manager operation called with a job id absent from
the registry is a total no-op: the read operations return null, pause and
cancel return false, and the mutators return the registry unchanged. -/
theorem C10_missing_id_operations_are_noops (reg : Registry) (jobId : Str)
    (now n : ℚ) (st : Stage) (fb : Option ℚ) (r : Option DownloadResultInfo)
    (e : Option Str) (hmiss : mapGet reg jobId = none) :
    getDownloadProgress now jobId reg = (none, reg)
    ∧ resumeDownload jobId reg = (none, reg)
    ∧ pauseDownload jobId reg = (false, reg)
    ∧ cancelDownload jobId reg = (false, reg)
    ∧ updateProgress jobId n reg = reg
    ∧ setStage jobId st reg = reg
    ∧ setStageTotalBytes jobId n reg = reg
    ∧ completeDownload jobId fb r reg = reg
    ∧ failDownload jobId e reg = reg := by
  refine ⟨?_, ?_, ?_, ?_, ?_, ?_, ?_, ?_, ?_⟩ <;>
    simp [getDownloadProgress, resumeDownload, pauseDownload, cancelDownload,
      updateProgress, setStage, setStageTotalBytes, completeDownload,
      failDownload, hmiss]

theorem C10_missing_id_witness :
    getDownloadProgress 0 jJ [] = (none, [])
    ∧ resumeDownload jJ [] = (none, [])
    ∧ pauseDownload jJ [] = (false, [])
    ∧ cancelDownload jJ [] = (false, [])
    ∧ updateProgress jJ 3 [] = []
    ∧ setStage jJ Stage.audio [] = []
    ∧ setStageTotalBytes jJ 3 [] = []
    ∧ completeDownload jJ (some 3) none [] = []
    ∧ failDownload jJ (some ("x".data)) [] = [] :=
  C10_missing_id_operations_are_noops [] jJ 0 3 Stage.audio (some 3) none
    (some ("x".data)) rfl

end Theorems

end Alparslan
